import Mathlib

/-
  Verification of the SDL GPU Vulkan driver (adapter selection, device
  suitability, command-buffer pooling, fences, CPU buffers).

  The definitions below are a shallow embedding of the C source.  Results of
  external Vulkan calls (device properties, extension enumerations, queue
  family tables, swapchain queries, native allocations) are modelled as
  explicit inputs; everything the driver itself computes is translated
  directly from the code.
-/

namespace SDLGpuVulkan

/-- Device-class priority table, indexed by VkPhysicalDeviceType:
index 0 = OTHER, 1 = INTEGRATED_GPU, 2 = DISCRETE_GPU, 3 = VIRTUAL_GPU,
4 = CPU.  Values copied from the static DEVICE_PRIORITY array. -/
def DEVICE_PRIORITY : Nat → Nat
  | 0 => 0
  | 1 => 3
  | 2 => 4
  | 3 => 2
  | 4 => 1
  | _ => 0

/-- The VulkanExtensions record: four required and three optional device
extensions, each recorded as a flag (uint8_t in the source). -/
structure VulkanExtensions where
  KHR_swapchain : Bool
  KHR_maintenance1 : Bool
  KHR_dedicated_allocation : Bool
  KHR_get_memory_requirements2 : Bool
  KHR_driver_properties : Bool
  KHR_portability_subset : Bool
  GGP_frame_token : Bool
deriving DecidableEq

/-- The SDL_memset of the supports record to zero at the top of
CheckDeviceExtensions. -/
def emptyVulkanExtensions : VulkanExtensions :=
  ⟨false, false, false, false, false, false, false⟩

/-- One iteration of the CHECK chain inside CheckDeviceExtensions: compare
the extension name against each known name and set the matching flag. -/
def markExtension (s : VulkanExtensions) (name : String) : VulkanExtensions :=
  if name = "VK_KHR_swapchain" then { s with KHR_swapchain := true }
  else if name = "VK_KHR_maintenance1" then { s with KHR_maintenance1 := true }
  else if name = "VK_KHR_dedicated_allocation" then { s with KHR_dedicated_allocation := true }
  else if name = "VK_KHR_get_memory_requirements2" then { s with KHR_get_memory_requirements2 := true }
  else if name = "VK_KHR_driver_properties" then { s with KHR_driver_properties := true }
  else if name = "VK_KHR_portability_subset" then { s with KHR_portability_subset := true }
  else if name = "VK_GGP_frame_token" then { s with GGP_frame_token := true }
  else s

/-- CheckDeviceExtensions: scan the enumerated extension names, populate the
supports record, and report whether the four required extensions are all
present. -/
def CheckDeviceExtensions (extensions : List String) : VulkanExtensions × Bool :=
  let supports := extensions.foldl markExtension emptyVulkanExtensions
  (supports,
   supports.KHR_swapchain &&
   supports.KHR_maintenance1 &&
   supports.KHR_dedicated_allocation &&
   supports.KHR_get_memory_requirements2)

/-- One VkQueueFamilyProperties entry together with the per-family result of
vkGetPhysicalDeviceSurfaceSupportKHR on the reference surface.  queueFlags is
the Vulkan bitmask: bit 0 = GRAPHICS, bit 1 = COMPUTE, bit 2 = TRANSFER. -/
structure QueueFamily where
  supportsPresent : Bool
  queueFlags : Nat
deriving DecidableEq

/-- The queue-family rank computed inside the selection loop of
VULKAN_INTERNAL_IsDeviceSuitable: graphics+compute+transfer ranks 3,
graphics+compute ranks 2, plain graphics ranks 1. -/
def famRank (qf : QueueFamily) : Nat :=
  if Nat.land qf.queueFlags 2 ≠ 0 then
    (if Nat.land qf.queueFlags 4 ≠ 0 then 3 else 2)
  else 1

/-- A queue family passes the initial filter when it can present to the
reference surface and has the graphics bit. -/
def eligibleQF (qf : QueueFamily) : Bool :=
  qf.supportsPresent && decide (Nat.land qf.queueFlags 1 ≠ 0)

/-- The queue-family selection loop of VULKAN_INTERNAL_IsDeviceSuitable:
walk the families in order keeping the best rank seen so far; only a strictly
greater rank replaces the current choice, so the first family of the winning
rank is kept.  The INT32_MAX sentinel of the source is modelled as none. -/
def selectQueueFamilyAux : List QueueFamily → Nat → Nat → Option Nat → Option Nat
  | [], _, _, idx => idx
  | qf :: rest, i, best, idx =>
    if eligibleQF qf = false then
      selectQueueFamilyAux rest (i + 1) best idx
    else if best < famRank qf then
      selectQueueFamilyAux rest (i + 1) (famRank qf) (some i)
    else
      selectQueueFamilyAux rest (i + 1) best idx

/-- Entry point for the queue-family scan: queueFamilyBest starts at 0 and
queueFamilyIndex at the INT32_MAX sentinel. -/
def selectQueueFamily (qfs : List QueueFamily) : Option Nat :=
  selectQueueFamilyAux qfs 0 0 none

/-- Everything the Vulkan implementation reports about one candidate physical
device, as consumed by VULKAN_INTERNAL_IsDeviceSuitable: its device type, the
enumerated device extensions, the queue family table, and the outcome of the
swapchain support query (success flag plus the lengths of the surface-format
and present-mode lists). -/
structure VulkanCandidate where
  deviceType : Nat
  extensionNames : List String
  queueFamilies : List QueueFamily
  querySuccess : Bool
  formatsLength : Nat
  presentModesLength : Nat
deriving DecidableEq

/-- Device-class rank of a candidate, read off the priority table. -/
def classRank (c : VulkanCandidate) : Nat :=
  DEVICE_PRIORITY c.deviceType

/-- The rank-independent part of the suitability check: required extensions
present, a graphics+present queue family found, and the swapchain query
succeeded with nonempty format and present-mode lists. -/
def deviceUsable (c : VulkanCandidate) : Bool :=
  (CheckDeviceExtensions c.extensionNames).2 &&
  (selectQueueFamily c.queueFamilies).isSome &&
  (c.querySuccess && decide (0 < c.formatsLength) && decide (0 < c.presentModesLength))

/-- VULKAN_INTERNAL_IsDeviceSuitable.  Returns the suitability flag, the
updated value of the deviceRank in/out parameter, and the queueFamilyIndex
out parameter (none when it was left at the INT32_MAX sentinel).  The rank
gate runs first: a candidate of strictly lower class than the running best is
rejected outright with the rank zeroed; otherwise the rank is raised to the
class of this candidate and the extension, queue-family and swapchain checks
run. -/
def VULKAN_INTERNAL_IsDeviceSuitable (deviceRank : Nat) (c : VulkanCandidate) :
    Bool × Nat × Option Nat :=
  if DEVICE_PRIORITY c.deviceType < deviceRank then
    (false, 0, none)
  else if (CheckDeviceExtensions c.extensionNames).2 = false then
    (false, DEVICE_PRIORITY c.deviceType, none)
  else
    match selectQueueFamily c.queueFamilies with
    | none => (false, DEVICE_PRIORITY c.deviceType, none)
    | some qfi =>
      (c.querySuccess && decide (0 < c.formatsLength) && decide (0 < c.presentModesLength),
       DEVICE_PRIORITY c.deviceType, some qfi)

/-- The candidate loop of VULKAN_INTERNAL_DeterminePhysicalDevice.  The
accumulator carries (suitableIndex, suitableQueueFamilyIndex) — none models
suitableIndex == -1 — and the running highestRank.  A suitable candidate
becomes the current choice (possibly overriding an equal-rank one); an
unsuitable candidate of strictly higher class disqualifies the current
choice.  Returns the final accumulator and highestRank. -/
def determineLoop :
    List VulkanCandidate → Nat → Nat → Option (Nat × Option Nat) →
    Option (Nat × Option Nat) × Nat
  | [], _, hr, acc => (acc, hr)
  | c :: rest, i, hr, acc =>
    if (VULKAN_INTERNAL_IsDeviceSuitable hr c).1 = true then
      determineLoop rest (i + 1) (VULKAN_INTERNAL_IsDeviceSuitable hr c).2.1
        (some (i, (VULKAN_INTERNAL_IsDeviceSuitable hr c).2.2))
    else if hr < (VULKAN_INTERNAL_IsDeviceSuitable hr c).2.1 then
      determineLoop rest (i + 1) (VULKAN_INTERNAL_IsDeviceSuitable hr c).2.1 none
    else determineLoop rest (i + 1) hr acc

/-- VkResult success code. -/
def VK_SUCCESS : Int := 0

/-- VkResult code reporting that more items exist than the buffer holds. -/
def VK_INCOMPLETE : Int := 5

/-- VULKAN_INTERNAL_DeterminePhysicalDevice.  Inputs: the VkResult of the
counting vkEnumeratePhysicalDevices call, the VkResult of the filling call,
and the enumerated candidates.  Returns the uint8_t return value of the
function together with the committed (adapter index, queue family) when one
was selected.  A VULKAN_SET_ERROR on the first call returns SDL_SetError,
whose -1 truncates to 255 in the uint8_t return type; VK_INCOMPLETE on the
second call is downgraded to success; an empty enumeration or an empty-handed
selection loop returns 0. -/
def VULKAN_INTERNAL_DeterminePhysicalDevice (enumRes1 enumRes2 : Int)
    (candidates : List VulkanCandidate) : Nat × Option (Nat × Option Nat) :=
  if enumRes1 ≠ VK_SUCCESS then (255, none)
  else if candidates.length = 0 then (0, none)
  else
    let res2 := if enumRes2 = VK_INCOMPLETE then VK_SUCCESS else enumRes2
    if res2 ≠ VK_SUCCESS then (0, none)
    else
      match (determineLoop candidates 0 0 none).1 with
      | some chosen => (1, some chosen)
      | none => (0, none)

/- Command buffer pooling.  The free list (inactiveCommandBuffers array up to
inactiveCommandBufferCount) is modelled as a list of native buffer handles,
with the top of the array at the tail of the list; the capacity field is
tracked separately.  Native handles produced by vkAllocateCommandBuffers are
modelled by a monotone counter, so a batch of allocateCount fresh buffers is
nextHandle, nextHandle+1, ... -/

/-- State of one VULKAN_CommandPool: the free list of inactive command
buffers and the allocated capacity. -/
structure CommandPoolState where
  inactiveCommandBuffers : List Nat
  inactiveCommandBufferCapacity : Nat
deriving DecidableEq

/-- VULKAN_INTERNAL_AllocateCommandBuffers: the capacity is raised by
allocateCount and the array reallocated before the native call; if
vkAllocateCommandBuffers fails (allocOk = false) the function returns at the
VULKAN_ERROR_CHECK with the capacity already raised and nothing appended;
on success the allocateCount fresh buffers are wrapped and appended to the
free list.  Also returns the advanced fresh-handle counter. -/
def VULKAN_INTERNAL_AllocateCommandBuffers (pool : CommandPoolState)
    (allocateCount : Nat) (allocOk : Bool) (nextHandle : Nat) :
    CommandPoolState × Nat :=
  let pool1 : CommandPoolState :=
    { pool with inactiveCommandBufferCapacity :=
        pool.inactiveCommandBufferCapacity + allocateCount }
  if allocOk = false then (pool1, nextHandle)
  else
    ({ pool1 with inactiveCommandBuffers :=
        pool1.inactiveCommandBuffers ++
          (List.range allocateCount).map (fun k => nextHandle + k) },
     nextHandle + allocateCount)

/-- The pool-creation path of VULKAN_INTERNAL_FetchCommandPool (hash-table
miss): the new pool starts with capacity 0 and an empty free list, then an
initial batch of 2 command buffers is allocated. -/
def VULKAN_INTERNAL_FetchCommandPool (allocOk : Bool) (nextHandle : Nat) :
    CommandPoolState × Nat :=
  VULKAN_INTERNAL_AllocateCommandBuffers ⟨[], 0⟩ 2 allocOk nextHandle

/-- The final lines of VULKAN_INTERNAL_GetInactiveCommandBufferFromPool:
read the buffer at index count-1 and decrement the count.  The source indexes
count-1 unconditionally; the none branch records the state in which that
read would underflow (an empty list after a failed growth). -/
def popInactive (grown : CommandPoolState × Nat) : Option Nat × CommandPoolState × Nat :=
  match grown.1.inactiveCommandBuffers.getLast? with
  | none => (none, grown.1, grown.2)
  | some b =>
    (some b,
     { grown.1 with inactiveCommandBuffers := grown.1.inactiveCommandBuffers.dropLast },
     grown.2)

/-- VULKAN_INTERNAL_GetInactiveCommandBufferFromPool: if the free list is
empty, grow by requesting a batch equal to the current capacity; then pop
the buffer at index count-1 (the tail of the list). -/
def VULKAN_INTERNAL_GetInactiveCommandBufferFromPool (pool : CommandPoolState)
    (allocOk : Bool) (nextHandle : Nat) :
    Option Nat × CommandPoolState × Nat :=
  popInactive
    (if pool.inactiveCommandBuffers.length = 0 then
      VULKAN_INTERNAL_AllocateCommandBuffers pool
        pool.inactiveCommandBufferCapacity allocOk nextHandle
    else (pool, nextHandle))

/-- A run of n consecutive acquisitions by one thread from its pool, with no
intervening returns and every native allocation succeeding; collects the
acquired buffers in order. -/
def acquireMany : Nat → CommandPoolState → Nat → List Nat × CommandPoolState × Nat
  | 0, pool, nh => ([], pool, nh)
  | Nat.succ n, pool, nh =>
    match VULKAN_INTERNAL_GetInactiveCommandBufferFromPool pool true nh with
    | (ob, pool1, nh1) =>
      match acquireMany n pool1 nh1 with
      | (acq, pool2, nh2) => (ob.toList ++ acq, pool2, nh2)

/-- A fence as described by the data model: a host-observable signaled flag.
The driver functions below ignore it entirely. -/
structure SDL_GpuFence where
  signaled : Bool
deriving DecidableEq

/-- VULKAN_GpuQueryFence: the driver stub returns 1 unconditionally. -/
def VULKAN_GpuQueryFence (fence : SDL_GpuFence) : Int := 1

/-- VULKAN_GpuWaitFence: the driver stub returns 0 (success) immediately. -/
def VULKAN_GpuWaitFence (fence : SDL_GpuFence) : Int := 0

/-- An SDL_GpuCpuBuffer: its length and the driverdata storage attached to
it (none models a NULL pointer).  Bytes are modelled as naturals. -/
structure SDL_GpuCpuBuffer where
  buflen : Nat
  driverdata : Option (List Nat)
deriving DecidableEq

/-- SDL_memcpy of n bytes from src into the front of dst. -/
def SDL_memcpy (dst src : List Nat) (n : Nat) : List Nat :=
  src.take n ++ dst.drop n

/-- VULKAN_GpuCreateCpuBuffer: SDL_calloc a zeroed block of buflen bytes
(callocOk models whether the allocation succeeds); on failure return
SDL_OutOfMemory (-1) with driverdata left NULL; otherwise copy the initial
data over the zeroed block when a data pointer was supplied.  Returns the
int result and the updated buffer. -/
def VULKAN_GpuCreateCpuBuffer (buffer : SDL_GpuCpuBuffer)
    (data : Option (List Nat)) (callocOk : Bool) : Int × SDL_GpuCpuBuffer :=
  if callocOk = false then (-1, { buffer with driverdata := none })
  else
    let storage := List.replicate buffer.buflen 0
    match data with
    | none => (0, { buffer with driverdata := some storage })
    | some d => (0, { buffer with driverdata := some (SDL_memcpy storage d buffer.buflen) })

/-- VULKAN_GpuLockCpuBuffer: returns the driverdata storage. -/
def VULKAN_GpuLockCpuBuffer (buffer : SDL_GpuCpuBuffer) : Option (List Nat) :=
  buffer.driverdata

/-- The four required device extension names. -/
def requiredExtNames : List String :=
  ["VK_KHR_swapchain", "VK_KHR_maintenance1",
   "VK_KHR_dedicated_allocation", "VK_KHR_get_memory_requirements2"]

/-- A usable integrated GPU candidate (device type 1). -/
def integratedUsable : VulkanCandidate :=
  { deviceType := 1, extensionNames := requiredExtNames,
    queueFamilies := [⟨true, 7⟩], querySuccess := true,
    formatsLength := 1, presentModesLength := 1 }

/-- A discrete GPU candidate (device type 2) that fails every usability
check. -/
def discreteUnusable : VulkanCandidate :=
  { deviceType := 2, extensionNames := [], queueFamilies := [],
    querySuccess := false, formatsLength := 0, presentModesLength := 0 }

/-- A usable virtual GPU candidate (device type 3). -/
def virtualUsable : VulkanCandidate :=
  { deviceType := 3, extensionNames := requiredExtNames,
    queueFamilies := [⟨true, 7⟩], querySuccess := true,
    formatsLength := 1, presentModesLength := 1 }

/-- A queue family table with eligible families of ranks 1 (index 0) and 3
(indices 2 and 3); index 1 cannot present. -/
def qfTableExample : List QueueFamily :=
  [⟨true, 1⟩, ⟨false, 7⟩, ⟨true, 7⟩, ⟨true, 7⟩]

/-- The spec scenario list: an integrated usable adapter, then a discrete
unusable one, then a virtual usable one. -/
def scenarioCandidates : List VulkanCandidate :=
  [integratedUsable, discreteUnusable, virtualUsable]

/-- Running maximum of the device-class ranks of a candidate list, folded
from an initial value — the evolution of highestRank over the selection
loop. -/
def maxClassFrom (hr : Nat) (cs : List VulkanCandidate) : Nat :=
  cs.foldl (fun m c => max m (classRank c)) hr

/-- First-some combinator used to state the selection-loop
characterization. -/
def orFallback (o fb : Option (Nat × Option Nat)) : Option (Nat × Option Nat) :=
  match o with
  | some v => some v
  | none => fb

/-- The last candidate (with its index and selected queue family) whose
class rank equals m and which is usable — the candidate the selection loop
commits to when the maximum class m admits a usable device. -/
def lastGood (m : Nat) : List VulkanCandidate → Nat → Option (Nat × Option Nat)
  | [], _ => none
  | c :: rest, i =>
    match lastGood m rest (i + 1) with
    | some v => some v
    | none =>
      if classRank c = m ∧ deviceUsable c = true then
        some (i, selectQueueFamily c.queueFamilies)
      else none

/-- Invariant of a command pool relative to the fresh-handle counter: the
free list holds pairwise distinct handles, all below the counter, and the
capacity is at least 1. -/
def PoolInv (pool : CommandPoolState) (nh : Nat) : Prop :=
  pool.inactiveCommandBuffers.Nodup ∧
  (∀ b ∈ pool.inactiveCommandBuffers, b < nh) ∧
  1 ≤ pool.inactiveCommandBufferCapacity

/-- Helper: every queue-family rank is at least 1. -/
theorem famRank_pos (qf : QueueFamily) : 1 ≤ famRank qf := by
  unfold famRank; split_ifs <;> omega

/-- Helper: the scan skips a family that fails the present/graphics filter. -/
theorem selectQFAux_skip (qf : QueueFamily) (rest : List QueueFamily)
    (i0 best : Nat) (idx : Option Nat) (h : eligibleQF qf = false) :
    selectQueueFamilyAux (qf :: rest) i0 best idx =
      selectQueueFamilyAux rest (i0 + 1) best idx := by
  simp only [selectQueueFamilyAux]
  rw [if_pos h]

/-- Helper: an eligible family of strictly greater rank becomes the choice. -/
theorem selectQFAux_beat (qf : QueueFamily) (rest : List QueueFamily)
    (i0 best : Nat) (idx : Option Nat) (h : ¬ eligibleQF qf = false)
    (hb : best < famRank qf) :
    selectQueueFamilyAux (qf :: rest) i0 best idx =
      selectQueueFamilyAux rest (i0 + 1) (famRank qf) (some i0) := by
  simp only [selectQueueFamilyAux]
  rw [if_neg h, if_pos hb]

/-- Helper: an eligible family that does not beat the running best is
passed over. -/
theorem selectQFAux_keep (qf : QueueFamily) (rest : List QueueFamily)
    (i0 best : Nat) (idx : Option Nat) (h : ¬ eligibleQF qf = false)
    (hb : ¬ best < famRank qf) :
    selectQueueFamilyAux (qf :: rest) i0 best idx =
      selectQueueFamilyAux rest (i0 + 1) best idx := by
  simp only [selectQueueFamilyAux]
  rw [if_neg h, if_neg hb]

/-- Helper: full characterization of the queue-family scan from an arbitrary
intermediate state.  Either no eligible family beats the incoming best rank
and the incoming index is returned, or the scan returns the first family
whose rank equals the maximum rank among eligible families (and that maximum
beats the incoming best). -/
theorem selectQFAux_spec (qfs : List QueueFamily) :
    ∀ (i0 best : Nat) (idx : Option Nat),
    (selectQueueFamilyAux qfs i0 best idx = idx ∧
      ∀ j, ∀ hj : j < qfs.length, eligibleQF qfs[j] = true →
        famRank qfs[j] ≤ best) ∨
    (∃ j, ∃ hj : j < qfs.length,
      selectQueueFamilyAux qfs i0 best idx = some (i0 + j) ∧
      eligibleQF qfs[j] = true ∧
      best < famRank qfs[j] ∧
      (∀ k, ∀ hk : k < qfs.length, eligibleQF qfs[k] = true →
        famRank qfs[k] ≤ famRank qfs[j]) ∧
      (∀ k, ∀ hk : k < qfs.length, k < j → eligibleQF qfs[k] = true →
        famRank qfs[k] < famRank qfs[j])) := by
  induction qfs with
  | nil =>
    intro i0 best idx
    left
    exact ⟨rfl, fun j hj => absurd hj (by simp)⟩
  | cons qf rest ih =>
    intro i0 best idx
    have hlen : (qf :: rest).length = rest.length + 1 := List.length_cons qf rest
    by_cases helig : eligibleQF qf = false
    · -- the head is skipped
      rw [selectQFAux_skip qf rest i0 best idx helig]
      rcases ih (i0 + 1) best idx with ⟨heq, hb⟩ | ⟨j, hj, hval, he, hlt, hmax, hfirst⟩
      · left
        refine ⟨heq, fun j hj hej => ?_⟩
        match j, hj with
        | 0, _ =>
          simp only [List.getElem_cons_zero] at hej
          rw [hej] at helig; cases helig
        | (k + 1), hk =>
          simp only [List.getElem_cons_succ] at hej ⊢
          exact hb k (by omega) hej
      · right
        refine ⟨j + 1, by omega, ?_, ?_, ?_, ?_, ?_⟩
        · rw [hval]; congr 1; omega
        · simpa only [List.getElem_cons_succ] using he
        · simpa only [List.getElem_cons_succ] using hlt
        · intro k hk hek
          match k, hk with
          | 0, _ =>
            simp only [List.getElem_cons_zero] at hek
            rw [hek] at helig; cases helig
          | (m + 1), hm =>
            simp only [List.getElem_cons_succ] at hek ⊢
            exact hmax m (by omega) hek
        · intro k hk hkj hek
          match k, hk with
          | 0, _ =>
            simp only [List.getElem_cons_zero] at hek
            rw [hek] at helig; cases helig
          | (m + 1), hm =>
            simp only [List.getElem_cons_succ] at hek ⊢
            exact hfirst m (by omega) (by omega) hek
    · have heligT : eligibleQF qf = true := by
        revert helig; cases eligibleQF qf <;> simp
      by_cases hbeat : best < famRank qf
      · -- the head becomes the current choice
        rw [selectQFAux_beat qf rest i0 best idx helig hbeat]
        rcases ih (i0 + 1) (famRank qf) (some i0) with
          ⟨heq, hb⟩ | ⟨j, hj, hval, he, hlt, hmax, hfirst⟩
        · right
          refine ⟨0, by omega, by rw [heq, Nat.add_zero], ?_, ?_, ?_, ?_⟩
          · simpa only [List.getElem_cons_zero] using heligT
          · simpa only [List.getElem_cons_zero] using hbeat
          · intro k hk hek
            match k, hk with
            | 0, _ => exact Nat.le_refl _
            | (m + 1), hm =>
              simp only [List.getElem_cons_succ, List.getElem_cons_zero] at hek ⊢
              exact hb m (by omega) hek
          · intro k hk hkj hek; omega
        · right
          have hqlt : famRank qf < famRank rest[j] := hlt
          refine ⟨j + 1, by omega, ?_, ?_, ?_, ?_, ?_⟩
          · rw [hval]; congr 1; omega
          · simpa only [List.getElem_cons_succ] using he
          · simp only [List.getElem_cons_succ]; omega
          · intro k hk hek
            match k, hk with
            | 0, _ =>
              simp only [List.getElem_cons_succ, List.getElem_cons_zero]
              omega
            | (m + 1), hm =>
              simp only [List.getElem_cons_succ] at hek ⊢
              exact hmax m (by omega) hek
          · intro k hk hkj hek
            match k, hk with
            | 0, _ =>
              simp only [List.getElem_cons_succ, List.getElem_cons_zero]
              omega
            | (m + 1), hm =>
              simp only [List.getElem_cons_succ] at hek ⊢
              exact hfirst m (by omega) (by omega) hek
      · -- the head is eligible but does not beat the running best
        rw [selectQFAux_keep qf rest i0 best idx helig hbeat]
        rcases ih (i0 + 1) best idx with ⟨heq, hb⟩ | ⟨j, hj, hval, he, hlt, hmax, hfirst⟩
        · left
          refine ⟨heq, fun j hj hej => ?_⟩
          match j, hj with
          | 0, _ =>
            simp only [List.getElem_cons_zero]
            omega
          | (k + 1), hk =>
            simp only [List.getElem_cons_succ] at hej ⊢
            exact hb k (by omega) hej
        · right
          have hqle : famRank qf ≤ best := by omega
          refine ⟨j + 1, by omega, ?_, ?_, ?_, ?_, ?_⟩
          · rw [hval]; congr 1; omega
          · simpa only [List.getElem_cons_succ] using he
          · simpa only [List.getElem_cons_succ] using hlt
          · intro k hk hek
            match k, hk with
            | 0, _ =>
              have := hlt
              simp only [List.getElem_cons_succ, List.getElem_cons_zero] at this ⊢
              omega
            | (m + 1), hm =>
              simp only [List.getElem_cons_succ] at hek ⊢
              exact hmax m (by omega) hek
          · intro k hk hkj hek
            match k, hk with
            | 0, _ =>
              have := hlt
              simp only [List.getElem_cons_succ, List.getElem_cons_zero] at this ⊢
              omega
            | (m + 1), hm =>
              simp only [List.getElem_cons_succ] at hek ⊢
              exact hfirst m (by omega) (by omega) hek

/-- C4: on an adapter with at least one usable (graphics+present) queue
family, the scan selects a usable family whose rank (3 for
graphics+compute+transfer, 2 for graphics+compute, 1 for graphics-only) is
maximal among usable families, and at equal rank the first-seen (lowest
index) family wins. -/
theorem claim_C4 (qfs : List QueueFamily)
    (h : ∃ j, ∃ hj : j < qfs.length, eligibleQF qfs[j] = true) :
    ∃ i, ∃ hi : i < qfs.length,
      selectQueueFamily qfs = some i ∧
      eligibleQF qfs[i] = true ∧
      (∀ j, ∀ hj : j < qfs.length, eligibleQF qfs[j] = true →
        famRank qfs[j] ≤ famRank qfs[i]) ∧
      (∀ j, ∀ hj : j < qfs.length, eligibleQF qfs[j] = true →
        famRank qfs[j] = famRank qfs[i] → i ≤ j) := by
  rcases selectQFAux_spec qfs 0 0 none with ⟨heq, hb⟩ | ⟨i, hi, hval, he, _, hmax, hfirst⟩
  · rcases h with ⟨j, hj, hej⟩
    have h1 := hb j hj hej
    have h2 := famRank_pos qfs[j]
    omega
  · refine ⟨i, hi, ?_, he, hmax, ?_⟩
    · unfold selectQueueFamily
      rw [hval, Nat.zero_add]
    · intro j hj hej heqr
      by_contra hcon
      push_neg at hcon
      have := hfirst j hj hcon hej
      omega

/-- C4 witness: in the example table, index 2 is selected — it is the first
family of the maximal rank 3 (index 0 has rank 1, index 1 cannot present,
index 3 ties at rank 3 but is seen later). -/
theorem claim_C4_witness :
    (∃ j, ∃ hj : j < qfTableExample.length, eligibleQF qfTableExample[j] = true) ∧
    (∃ i, ∃ hi : i < qfTableExample.length,
      selectQueueFamily qfTableExample = some i ∧
      eligibleQF qfTableExample[i] = true ∧
      (∀ j, ∀ hj : j < qfTableExample.length, eligibleQF qfTableExample[j] = true →
        famRank qfTableExample[j] ≤ famRank qfTableExample[i]) ∧
      (∀ j, ∀ hj : j < qfTableExample.length, eligibleQF qfTableExample[j] = true →
        famRank qfTableExample[j] = famRank qfTableExample[i] → i ≤ j)) :=
  ⟨⟨0, by decide, by decide⟩, claim_C4 qfTableExample ⟨0, by decide, by decide⟩⟩

/-- Helper: a single CHECK step sets KHR_swapchain only on a name match. -/
theorem markExtension_swapchain (s : VulkanExtensions) (n : String)
    (h : (markExtension s n).KHR_swapchain = true) :
    n = "VK_KHR_swapchain" ∨ s.KHR_swapchain = true := by
  unfold markExtension at h
  split_ifs at h with h1 h2 h3 h4 h5 h6 h7
  · exact Or.inl h1
  all_goals exact Or.inr h

/-- Helper: a single CHECK step sets KHR_maintenance1 only on a name
match. -/
theorem markExtension_maintenance1 (s : VulkanExtensions) (n : String)
    (h : (markExtension s n).KHR_maintenance1 = true) :
    n = "VK_KHR_maintenance1" ∨ s.KHR_maintenance1 = true := by
  unfold markExtension at h
  split_ifs at h with h1 h2 h3 h4 h5 h6 h7
  · exact Or.inr h
  · exact Or.inl h2
  all_goals exact Or.inr h

/-- Helper: a single CHECK step sets KHR_dedicated_allocation only on a name
match. -/
theorem markExtension_dedicated (s : VulkanExtensions) (n : String)
    (h : (markExtension s n).KHR_dedicated_allocation = true) :
    n = "VK_KHR_dedicated_allocation" ∨ s.KHR_dedicated_allocation = true := by
  unfold markExtension at h
  split_ifs at h with h1 h2 h3 h4 h5 h6 h7
  · exact Or.inr h
  · exact Or.inr h
  · exact Or.inl h3
  all_goals exact Or.inr h

/-- Helper: a single CHECK step sets KHR_get_memory_requirements2 only on a
name match. -/
theorem markExtension_memreq2 (s : VulkanExtensions) (n : String)
    (h : (markExtension s n).KHR_get_memory_requirements2 = true) :
    n = "VK_KHR_get_memory_requirements2" ∨ s.KHR_get_memory_requirements2 = true := by
  unfold markExtension at h
  split_ifs at h with h1 h2 h3 h4 h5 h6 h7
  · exact Or.inr h
  · exact Or.inr h
  · exact Or.inr h
  · exact Or.inl h4
  all_goals exact Or.inr h

/-- Helper: the KHR_swapchain flag is set by the scan only if the name was
enumerated. -/
theorem foldl_mark_swapchain :
    ∀ (names : List String) (s : VulkanExtensions),
    (names.foldl markExtension s).KHR_swapchain = true →
    s.KHR_swapchain = true ∨ "VK_KHR_swapchain" ∈ names := by
  intro names
  induction names with
  | nil => intro s h; exact Or.inl h
  | cons n rest ih =>
    intro s h
    simp only [List.foldl_cons] at h
    rcases ih (markExtension s n) h with h2 | h2
    · rcases markExtension_swapchain s n h2 with h3 | h3
      · subst h3; exact Or.inr (List.mem_cons_self _ _)
      · exact Or.inl h3
    · exact Or.inr (List.mem_cons_of_mem n h2)

/-- Helper: the KHR_maintenance1 flag is set by the scan only if the name was
enumerated. -/
theorem foldl_mark_maintenance1 :
    ∀ (names : List String) (s : VulkanExtensions),
    (names.foldl markExtension s).KHR_maintenance1 = true →
    s.KHR_maintenance1 = true ∨ "VK_KHR_maintenance1" ∈ names := by
  intro names
  induction names with
  | nil => intro s h; exact Or.inl h
  | cons n rest ih =>
    intro s h
    simp only [List.foldl_cons] at h
    rcases ih (markExtension s n) h with h2 | h2
    · rcases markExtension_maintenance1 s n h2 with h3 | h3
      · subst h3; exact Or.inr (List.mem_cons_self _ _)
      · exact Or.inl h3
    · exact Or.inr (List.mem_cons_of_mem n h2)

/-- Helper: the KHR_dedicated_allocation flag is set by the scan only if the
name was enumerated. -/
theorem foldl_mark_dedicated :
    ∀ (names : List String) (s : VulkanExtensions),
    (names.foldl markExtension s).KHR_dedicated_allocation = true →
    s.KHR_dedicated_allocation = true ∨ "VK_KHR_dedicated_allocation" ∈ names := by
  intro names
  induction names with
  | nil => intro s h; exact Or.inl h
  | cons n rest ih =>
    intro s h
    simp only [List.foldl_cons] at h
    rcases ih (markExtension s n) h with h2 | h2
    · rcases markExtension_dedicated s n h2 with h3 | h3
      · subst h3; exact Or.inr (List.mem_cons_self _ _)
      · exact Or.inl h3
    · exact Or.inr (List.mem_cons_of_mem n h2)

/-- Helper: the KHR_get_memory_requirements2 flag is set by the scan only if
the name was enumerated. -/
theorem foldl_mark_memreq2 :
    ∀ (names : List String) (s : VulkanExtensions),
    (names.foldl markExtension s).KHR_get_memory_requirements2 = true →
    s.KHR_get_memory_requirements2 = true ∨ "VK_KHR_get_memory_requirements2" ∈ names := by
  intro names
  induction names with
  | nil => intro s h; exact Or.inl h
  | cons n rest ih =>
    intro s h
    simp only [List.foldl_cons] at h
    rcases ih (markExtension s n) h with h2 | h2
    · rcases markExtension_memreq2 s n h2 with h3 | h3
      · subst h3; exact Or.inr (List.mem_cons_self _ _)
      · exact Or.inl h3
    · exact Or.inr (List.mem_cons_of_mem n h2)

/-- C3: a candidate is reported suitable only if the four required device
extensions were all enumerated, some queue family is simultaneously
graphics-capable and present-capable, and the surface-format and
present-mode lists are both nonempty. -/
theorem claim_C3 (deviceRank : Nat) (c : VulkanCandidate)
    (h : (VULKAN_INTERNAL_IsDeviceSuitable deviceRank c).1 = true) :
    ("VK_KHR_swapchain" ∈ c.extensionNames ∧
     "VK_KHR_maintenance1" ∈ c.extensionNames ∧
     "VK_KHR_dedicated_allocation" ∈ c.extensionNames ∧
     "VK_KHR_get_memory_requirements2" ∈ c.extensionNames) ∧
    (∃ j, ∃ hj : j < c.queueFamilies.length,
      (c.queueFamilies[j]).supportsPresent = true ∧
      Nat.land (c.queueFamilies[j]).queueFlags 1 ≠ 0) ∧
    0 < c.formatsLength ∧ 0 < c.presentModesLength := by
  unfold VULKAN_INTERNAL_IsDeviceSuitable at h
  split_ifs at h with h1 h2
  have hext : (CheckDeviceExtensions c.extensionNames).2 = true := by
    revert h2; cases (CheckDeviceExtensions c.extensionNames).2 <;> simp
  simp only [CheckDeviceExtensions, Bool.and_eq_true] at hext
  obtain ⟨⟨⟨hsw, hm1⟩, hda⟩, hmr⟩ := hext
  cases hsel : selectQueueFamily c.queueFamilies with
  | none => rw [hsel] at h; simp at h
  | some q =>
    rw [hsel] at h
    simp only [Bool.and_eq_true, decide_eq_true_eq] at h
    refine ⟨⟨?_, ?_, ?_, ?_⟩, ?_, h.1.2, h.2⟩
    · exact (foldl_mark_swapchain c.extensionNames emptyVulkanExtensions hsw).resolve_left
        (by decide)
    · exact (foldl_mark_maintenance1 c.extensionNames emptyVulkanExtensions hm1).resolve_left
        (by decide)
    · exact (foldl_mark_dedicated c.extensionNames emptyVulkanExtensions hda).resolve_left
        (by decide)
    · exact (foldl_mark_memreq2 c.extensionNames emptyVulkanExtensions hmr).resolve_left
        (by decide)
    · unfold selectQueueFamily at hsel
      rcases selectQFAux_spec c.queueFamilies 0 0 none with ⟨heq, _⟩ | ⟨j, hj, _, he, _⟩
      · rw [heq] at hsel; cases hsel
      · simp only [eligibleQF, Bool.and_eq_true, decide_eq_true_eq] at he
        exact ⟨j, hj, he.1, he.2⟩

/-- C3 witness: the usable integrated candidate is reported suitable (at
incoming rank 0) and satisfies every necessary condition. -/
theorem claim_C3_witness :
    (VULKAN_INTERNAL_IsDeviceSuitable 0 integratedUsable).1 = true ∧
    (("VK_KHR_swapchain" ∈ integratedUsable.extensionNames ∧
      "VK_KHR_maintenance1" ∈ integratedUsable.extensionNames ∧
      "VK_KHR_dedicated_allocation" ∈ integratedUsable.extensionNames ∧
      "VK_KHR_get_memory_requirements2" ∈ integratedUsable.extensionNames) ∧
     (∃ j, ∃ hj : j < integratedUsable.queueFamilies.length,
       (integratedUsable.queueFamilies[j]).supportsPresent = true ∧
       Nat.land (integratedUsable.queueFamilies[j]).queueFlags 1 ≠ 0) ∧
     0 < integratedUsable.formatsLength ∧ 0 < integratedUsable.presentModesLength) :=
  ⟨by decide, claim_C3 0 integratedUsable (by decide)⟩

/-- Helper: unfolding the running maximum over a cons cell. -/
theorem maxClassFrom_cons (hr : Nat) (c : VulkanCandidate) (rest : List VulkanCandidate) :
    maxClassFrom hr (c :: rest) = maxClassFrom (max hr (classRank c)) rest := rfl

/-- Helper: the running maximum never decreases below its seed. -/
theorem le_maxClassFrom : ∀ (cs : List VulkanCandidate) (hr : Nat), hr ≤ maxClassFrom hr cs := by
  intro cs
  induction cs with
  | nil => intro hr; exact Nat.le_refl hr
  | cons c rest ih =>
    intro hr
    rw [maxClassFrom_cons]
    exact Nat.le_trans (Nat.le_max_left hr (classRank c)) (ih (max hr (classRank c)))

/-- Helper: orFallback with an empty fallback. -/
theorem orFallback_none (a : Option (Nat × Option Nat)) : orFallback a none = a := by
  cases a <;> rfl

/-- Helper: collapsing a nested orFallback whose inner fallback is empty. -/
theorem orFallback_assoc_none (a b : Option (Nat × Option Nat)) :
    orFallback (orFallback a none) b = orFallback a b := by
  cases a <;> rfl

/-- Helper: collapsing a nested orFallback whose inner fallback is full. -/
theorem orFallback_assoc_some (a : Option (Nat × Option Nat)) (v : Nat × Option Nat)
    (b : Option (Nat × Option Nat)) :
    orFallback (orFallback a (some v)) b = orFallback a (some v) := by
  cases a <;> rfl

/-- Helper: unfolding lastGood over a cons cell. -/
theorem lastGood_cons (m : Nat) (c : VulkanCandidate) (rest : List VulkanCandidate) (i : Nat) :
    lastGood m (c :: rest) i =
      orFallback (lastGood m rest (i + 1))
        (if classRank c = m ∧ deviceUsable c = true then
          some (i, selectQueueFamily c.queueFamilies)
        else none) := by
  simp only [lastGood, orFallback]

/-- Helper: the suitability flag equals the rank gate conjoined with the
rank-independent usability check. -/
theorem isSuit_fst (hr : Nat) (c : VulkanCandidate) :
    (VULKAN_INTERNAL_IsDeviceSuitable hr c).1 =
      (decide (hr ≤ classRank c) && deviceUsable c) := by
  unfold VULKAN_INTERNAL_IsDeviceSuitable
  by_cases h1 : DEVICE_PRIORITY c.deviceType < hr
  · rw [if_pos h1]
    have h3 : ¬ hr ≤ classRank c := by unfold classRank; omega
    simp [h3]
  · rw [if_neg h1]
    have hle : hr ≤ classRank c := by unfold classRank; omega
    by_cases h2 : (CheckDeviceExtensions c.extensionNames).2 = false
    · rw [if_pos h2]
      simp [deviceUsable, h2, hle]
    · rw [if_neg h2]
      have h2t : (CheckDeviceExtensions c.extensionNames).2 = true := by
        revert h2; cases (CheckDeviceExtensions c.extensionNames).2 <;> simp
      cases hsel : selectQueueFamily c.queueFamilies with
      | none => simp [deviceUsable, hsel, h2t, hle]
      | some q => simp [deviceUsable, hsel, h2t, hle, Bool.and_assoc]

/-- Helper: the deviceRank out-value is zeroed by the gate and otherwise set
to the class of the candidate. -/
theorem isSuit_rank (hr : Nat) (c : VulkanCandidate) :
    (VULKAN_INTERNAL_IsDeviceSuitable hr c).2.1 =
      if classRank c < hr then 0 else classRank c := by
  unfold VULKAN_INTERNAL_IsDeviceSuitable classRank
  by_cases h1 : DEVICE_PRIORITY c.deviceType < hr
  · rw [if_pos h1, if_pos h1]
  · rw [if_neg h1, if_neg h1]
    by_cases h2 : (CheckDeviceExtensions c.extensionNames).2 = false
    · rw [if_pos h2]
    · rw [if_neg h2]
      cases hsel : selectQueueFamily c.queueFamilies <;> simp [hsel]

/-- Helper: for a usable candidate that passes the gate, the queueFamilyIndex
out-value is the selected queue family. -/
theorem isSuit_qfi (hr : Nat) (c : VulkanCandidate) (h1 : ¬ classRank c < hr)
    (h2 : deviceUsable c = true) :
    (VULKAN_INTERNAL_IsDeviceSuitable hr c).2.2 = selectQueueFamily c.queueFamilies := by
  unfold deviceUsable at h2
  simp only [Bool.and_eq_true] at h2
  obtain ⟨⟨hext, hsome⟩, -⟩ := h2
  obtain ⟨q, hq⟩ := Option.isSome_iff_exists.mp hsome
  unfold VULKAN_INTERNAL_IsDeviceSuitable
  rw [if_neg (by unfold classRank at h1; exact h1), if_neg (by simp [hext]), hq]

/-- Helper: loop step on a suitable candidate. -/
theorem determineLoop_cons_suit (c : VulkanCandidate) (rest : List VulkanCandidate)
    (i0 hr : Nat) (acc : Option (Nat × Option Nat))
    (h : (VULKAN_INTERNAL_IsDeviceSuitable hr c).1 = true) :
    determineLoop (c :: rest) i0 hr acc =
      determineLoop rest (i0 + 1) (VULKAN_INTERNAL_IsDeviceSuitable hr c).2.1
        (some (i0, (VULKAN_INTERNAL_IsDeviceSuitable hr c).2.2)) := by
  simp only [determineLoop]
  rw [if_pos h]

/-- Helper: loop step on an unsuitable candidate of strictly higher class. -/
theorem determineLoop_cons_higher (c : VulkanCandidate) (rest : List VulkanCandidate)
    (i0 hr : Nat) (acc : Option (Nat × Option Nat))
    (h : ¬ (VULKAN_INTERNAL_IsDeviceSuitable hr c).1 = true)
    (h2 : hr < (VULKAN_INTERNAL_IsDeviceSuitable hr c).2.1) :
    determineLoop (c :: rest) i0 hr acc =
      determineLoop rest (i0 + 1) (VULKAN_INTERNAL_IsDeviceSuitable hr c).2.1 none := by
  simp only [determineLoop]
  rw [if_neg h, if_pos h2]

/-- Helper: loop step on an unsuitable candidate that does not raise the
running rank. -/
theorem determineLoop_cons_keep (c : VulkanCandidate) (rest : List VulkanCandidate)
    (i0 hr : Nat) (acc : Option (Nat × Option Nat))
    (h : ¬ (VULKAN_INTERNAL_IsDeviceSuitable hr c).1 = true)
    (h2 : ¬ hr < (VULKAN_INTERNAL_IsDeviceSuitable hr c).2.1) :
    determineLoop (c :: rest) i0 hr acc = determineLoop rest (i0 + 1) hr acc := by
  simp only [determineLoop]
  rw [if_neg h, if_neg h2]

/-- Helper: full characterization of the selection loop.  The final
highestRank is the running maximum of the class ranks; the final choice is
the last usable candidate at that maximum class when one exists, otherwise
none if the maximum strictly exceeded the incoming rank (a higher-class
unusable candidate disqualified everything), otherwise the incoming
accumulator. -/
theorem determineLoop_spec :
    ∀ (cs : List VulkanCandidate) (i0 hr : Nat) (acc : Option (Nat × Option Nat)),
    (determineLoop cs i0 hr acc).2 = maxClassFrom hr cs ∧
    (determineLoop cs i0 hr acc).1 =
      orFallback (lastGood (maxClassFrom hr cs) cs i0)
        (if hr < maxClassFrom hr cs then none else acc) := by
  intro cs
  induction cs with
  | nil =>
    intro i0 hr acc
    refine ⟨rfl, ?_⟩
    show acc = orFallback none (if hr < hr then none else acc)
    rw [if_neg (Nat.lt_irrefl hr)]
    rfl
  | cons c rest ih =>
    intro i0 hr acc
    have hfst := isSuit_fst hr c
    have hrank := isSuit_rank hr c
    by_cases hgate : classRank c < hr
    · -- rejected by the gate: rank zeroed, state unchanged
      have hsF : ¬ (VULKAN_INTERNAL_IsDeviceSuitable hr c).1 = true := by
        rw [hfst]; simp [Nat.not_le.mpr hgate]
      have hr0 : (VULKAN_INTERNAL_IsDeviceSuitable hr c).2.1 = 0 := by
        rw [hrank, if_pos hgate]
      rw [determineLoop_cons_keep c rest i0 hr acc hsF (by rw [hr0]; omega)]
      have hmax : max hr (classRank c) = hr := Nat.max_eq_left (Nat.le_of_lt hgate)
      rw [maxClassFrom_cons, hmax]
      obtain ⟨ih2, ih1⟩ := ih (i0 + 1) hr acc
      refine ⟨ih2, ?_⟩
      rw [ih1, lastGood_cons]
      have hne : ¬ (classRank c = maxClassFrom hr rest ∧ deviceUsable c = true) := by
        rintro ⟨hceq, -⟩
        have h3 := le_maxClassFrom rest hr
        omega
      rw [if_neg hne, orFallback_assoc_none]
    · have hle : hr ≤ classRank c := Nat.not_lt.mp hgate
      have hrp : (VULKAN_INTERNAL_IsDeviceSuitable hr c).2.1 = classRank c := by
        rw [hrank, if_neg hgate]
      have hmax : max hr (classRank c) = classRank c := Nat.max_eq_right hle
      by_cases huse : deviceUsable c = true
      · -- suitable: becomes the current choice
        have hsT : (VULKAN_INTERNAL_IsDeviceSuitable hr c).1 = true := by
          rw [hfst]; simp [hle, huse]
        have hqfi : (VULKAN_INTERNAL_IsDeviceSuitable hr c).2.2 =
            selectQueueFamily c.queueFamilies := isSuit_qfi hr c hgate huse
        rw [determineLoop_cons_suit c rest i0 hr acc hsT, hrp, hqfi]
        rw [maxClassFrom_cons, hmax]
        obtain ⟨ih2, ih1⟩ :=
          ih (i0 + 1) (classRank c) (some (i0, selectQueueFamily c.queueFamilies))
        refine ⟨ih2, ?_⟩
        rw [ih1, lastGood_cons]
        have hcM := le_maxClassFrom rest (classRank c)
        cases hres : lastGood (maxClassFrom (classRank c) rest) rest (i0 + 1) with
        | some v => simp only [orFallback]
        | none =>
          simp only [orFallback]
          by_cases hpM : classRank c = maxClassFrom (classRank c) rest
          · rw [if_neg (show ¬ classRank c < maxClassFrom (classRank c) rest by omega),
              if_pos ⟨hpM, huse⟩]
          · rw [if_pos (show classRank c < maxClassFrom (classRank c) rest by omega),
              if_neg (show ¬ (classRank c = maxClassFrom (classRank c) rest ∧
                deviceUsable c = true) by rintro ⟨h5, -⟩; exact hpM h5)]
            simp only [orFallback]
            rw [if_pos (show hr < maxClassFrom (classRank c) rest by omega)]
      · -- unsuitable: may still raise the rank and disqualify
        have huseF : deviceUsable c = false := by
          revert huse; cases deviceUsable c <;> simp
        have hsF : ¬ (VULKAN_INTERNAL_IsDeviceSuitable hr c).1 = true := by
          rw [hfst, huseF]; simp
        by_cases hlt : hr < classRank c
        · rw [determineLoop_cons_higher c rest i0 hr acc hsF (by rw [hrp]; exact hlt), hrp]
          rw [maxClassFrom_cons, hmax]
          obtain ⟨ih2, ih1⟩ := ih (i0 + 1) (classRank c) none
          refine ⟨ih2, ?_⟩
          rw [ih1, lastGood_cons]
          have hcM := le_maxClassFrom rest (classRank c)
          cases hres : lastGood (maxClassFrom (classRank c) rest) rest (i0 + 1) with
          | some v => simp only [orFallback]
          | none =>
            simp only [orFallback]
            rw [if_neg (show ¬ (classRank c = maxClassFrom (classRank c) rest ∧
              deviceUsable c = true) by rintro ⟨-, h6⟩; rw [huseF] at h6; cases h6)]
            simp only [orFallback]
            rw [ite_self, if_pos (show hr < maxClassFrom (classRank c) rest by omega)]
        · have heq : hr = classRank c := by omega
          rw [determineLoop_cons_keep c rest i0 hr acc hsF (by rw [hrp]; exact hlt)]
          rw [maxClassFrom_cons, hmax, ← heq]
          obtain ⟨ih2, ih1⟩ := ih (i0 + 1) hr acc
          refine ⟨ih2, ?_⟩
          rw [ih1, lastGood_cons]
          cases hres : lastGood (maxClassFrom hr rest) rest (i0 + 1) with
          | some v => simp only [orFallback]
          | none =>
            simp only [orFallback]
            rw [if_neg (show ¬ (classRank c = maxClassFrom hr rest ∧
              deviceUsable c = true) by rintro ⟨-, h6⟩; rw [huseF] at h6; cases h6)]

/-- Helper: when lastGood commits to an entry, that entry is a usable
candidate of class m, at its position in the list, with its selected queue
family. -/
theorem lastGood_some :
    ∀ (cs : List VulkanCandidate) (m i0 i : Nat) (q : Option Nat),
    lastGood m cs i0 = some (i, q) →
    ∃ j, ∃ hj : j < cs.length, i = i0 + j ∧ classRank cs[j] = m ∧
      deviceUsable cs[j] = true ∧ q = selectQueueFamily (cs[j]).queueFamilies := by
  intro cs
  induction cs with
  | nil => intro m i0 i q h; simp [lastGood] at h
  | cons c rest ih =>
    intro m i0 i q h
    rw [lastGood_cons] at h
    cases hres : lastGood m rest (i0 + 1) with
    | some v =>
      rw [hres] at h
      simp only [orFallback] at h
      rw [h] at hres
      obtain ⟨j, hj, hij, hcr, hus, hq⟩ := ih m (i0 + 1) i q hres
      refine ⟨j + 1, by simp only [List.length_cons]; omega, by omega, ?_, ?_, ?_⟩
      · simpa only [List.getElem_cons_succ] using hcr
      · simpa only [List.getElem_cons_succ] using hus
      · simpa only [List.getElem_cons_succ] using hq
    | none =>
      rw [hres] at h
      simp only [orFallback] at h
      by_cases hc : classRank c = m ∧ deviceUsable c = true
      · rw [if_pos hc] at h
        simp only [Option.some.injEq, Prod.mk.injEq] at h
        refine ⟨0, by simp, by omega, ?_, ?_, ?_⟩
        · simpa only [List.getElem_cons_zero] using hc.1
        · simpa only [List.getElem_cons_zero] using hc.2
        · simp only [List.getElem_cons_zero]
          exact h.2.symm
      · rw [if_neg hc] at h
        exact Option.noConfusion h

/-- Helper: when no candidate of class m is usable, lastGood finds
nothing. -/
theorem lastGood_none_of :
    ∀ (cs : List VulkanCandidate) (m i0 : Nat),
    (∀ j, ∀ hj : j < cs.length, classRank cs[j] = m → deviceUsable cs[j] = false) →
    lastGood m cs i0 = none := by
  intro cs
  induction cs with
  | nil => intro m i0 _; rfl
  | cons c rest ih =>
    intro m i0 hall
    rw [lastGood_cons]
    rw [ih m (i0 + 1) (fun j hj hc => by
      have := hall (j + 1) (by simp only [List.length_cons]; omega)
      simp only [List.getElem_cons_succ] at this
      exact this hc)]
    rw [if_neg (by
      rintro ⟨hc, hu⟩
      have := hall 0 (by simp)
      simp only [List.getElem_cons_zero] at this
      rw [this hc] at hu
      cases hu)]
    rfl

/-- Helper: on the success path (both enumeration results VK_SUCCESS and a
nonempty candidate list), the committed choice of DeterminePhysicalDevice is
exactly the final accumulator of the selection loop. -/
theorem determine_snd (cs : List VulkanCandidate) (h : ¬ cs.length = 0) :
    (VULKAN_INTERNAL_DeterminePhysicalDevice 0 0 cs).2 = (determineLoop cs 0 0 none).1 := by
  unfold VULKAN_INTERNAL_DeterminePhysicalDevice
  rw [if_neg (by simp [VK_SUCCESS]), if_neg h]
  simp only [VK_INCOMPLETE, VK_SUCCESS]
  rw [if_neg (by norm_num)]
  cases hres : (determineLoop cs 0 0 none).1 <;> simp [hres]

/-- Helper: when the selection loop ends empty-handed, the function returns
0 with no adapter committed. -/
theorem determine_fail (cs : List VulkanCandidate)
    (h : (determineLoop cs 0 0 none).1 = none) :
    VULKAN_INTERNAL_DeterminePhysicalDevice 0 0 cs = (0, none) := by
  unfold VULKAN_INTERNAL_DeterminePhysicalDevice
  rw [if_neg (by simp [VK_SUCCESS])]
  by_cases hnil : cs.length = 0
  · rw [if_pos hnil]
  · rw [if_neg hnil]
    simp only [VK_INCOMPLETE, VK_SUCCESS]
    rw [if_neg (by norm_num), h]

/-- C1: the committed adapter always has the maximal device-class rank of
the whole candidate list and is usable; and when no candidate at that
maximal class is usable, selection commits to nothing and returns 0 — a
higher-class unusable candidate disqualifies every lower-class one, with no
fallback. -/
theorem claim_C1 (cs : List VulkanCandidate) :
    (∀ i q, (VULKAN_INTERNAL_DeterminePhysicalDevice 0 0 cs).2 = some (i, q) →
      ∃ hi : i < cs.length, classRank cs[i] = maxClassFrom 0 cs ∧
        deviceUsable cs[i] = true) ∧
    ((∀ j, ∀ hj : j < cs.length, classRank cs[j] = maxClassFrom 0 cs →
        deviceUsable cs[j] = false) →
      VULKAN_INTERNAL_DeterminePhysicalDevice 0 0 cs = (0, none)) := by
  constructor
  · intro i q h
    by_cases hnil : cs.length = 0
    · rw [show VULKAN_INTERNAL_DeterminePhysicalDevice 0 0 cs = (0, none) by
        unfold VULKAN_INTERNAL_DeterminePhysicalDevice
        rw [if_neg (by simp [VK_SUCCESS]), if_pos hnil]] at h
      cases h
    · rw [determine_snd cs hnil] at h
      obtain ⟨-, hloop⟩ := determineLoop_spec cs 0 0 none
      rw [hloop, ite_self, orFallback_none] at h
      obtain ⟨j, hj, hij, hcr, hus, -⟩ := lastGood_some cs (maxClassFrom 0 cs) 0 i q h
      exact ⟨by omega, by
        have hij0 : i = j := by omega
        subst hij0
        exact ⟨hcr, hus⟩⟩
  · intro hall
    apply determine_fail
    obtain ⟨-, hloop⟩ := determineLoop_spec cs 0 0 none
    rw [hloop, ite_self, orFallback_none]
    exact lastGood_none_of cs (maxClassFrom 0 cs) 0 hall

/-- C1 witness.  First part: on the list (virtual usable, integrated usable)
selection commits to index 1, and the theorem confirms that index has the
maximal class and is usable.  Second part: in the scenario list (integrated
usable, discrete unusable, virtual usable) the only candidate at the maximal
class 4 — the discrete GPU — is unusable, so selection returns 0 with no
adapter, even though two lower-class usable adapters exist. -/
theorem claim_C1_witness :
    ((VULKAN_INTERNAL_DeterminePhysicalDevice 0 0 [virtualUsable, integratedUsable]).2 =
        some (1, some 0) ∧
      (∃ hi : 1 < ([virtualUsable, integratedUsable] : List VulkanCandidate).length,
        classRank ([virtualUsable, integratedUsable] : List VulkanCandidate)[1] =
          maxClassFrom 0 [virtualUsable, integratedUsable] ∧
        deviceUsable ([virtualUsable, integratedUsable] : List VulkanCandidate)[1] = true)) ∧
    ((∀ j, ∀ hj : j < scenarioCandidates.length,
      classRank scenarioCandidates[j] = maxClassFrom 0 scenarioCandidates →
      deviceUsable scenarioCandidates[j] = false) ∧
    VULKAN_INTERNAL_DeterminePhysicalDevice 0 0 scenarioCandidates = (0, none)) := by
  have h1 : (VULKAN_INTERNAL_DeterminePhysicalDevice 0 0 [virtualUsable, integratedUsable]).2 =
      some (1, some 0) := by decide
  have h : ∀ j, ∀ hj : j < scenarioCandidates.length,
      classRank scenarioCandidates[j] = maxClassFrom 0 scenarioCandidates →
      deviceUsable scenarioCandidates[j] = false := by decide
  exact ⟨⟨h1, (claim_C1 [virtualUsable, integratedUsable]).1 1 (some 0) h1⟩,
    h, (claim_C1 scenarioCandidates).2 h⟩

/-- C2 counterexample: the claim orders virtual (device type 3) strictly
above integrated (device type 1), but the priority table ranks the virtual
GPU at 2 and the integrated GPU at 3, so the integrated GPU outranks the
virtual one. -/
theorem counterexample_C2 :
    DEVICE_PRIORITY 3 = 2 ∧ DEVICE_PRIORITY 1 = 3 ∧
    ¬ DEVICE_PRIORITY 1 < DEVICE_PRIORITY 3 := by decide

/-- C2 (amended): the device-class rank used by adapter selection comes from
the fixed priority table ordered discrete (type 2) > integrated (type 1) >
virtual (type 3) > software/CPU (type 4) > other (type 0). -/
theorem claim_C2 :
    DEVICE_PRIORITY 2 > DEVICE_PRIORITY 1 ∧
    DEVICE_PRIORITY 1 > DEVICE_PRIORITY 3 ∧
    DEVICE_PRIORITY 3 > DEVICE_PRIORITY 4 ∧
    DEVICE_PRIORITY 4 > DEVICE_PRIORITY 0 := by decide

/-- C6 counterexample: growing a pool of capacity 2 with an empty free list
by 2 buffers while the native allocation fails leaves the capacity at 4, not
at its prior value 2, so the aborted growth does retain partial state. -/
theorem counterexample_C6 :
    (VULKAN_INTERNAL_AllocateCommandBuffers ⟨[], 2⟩ 2 false 0).1.inactiveCommandBufferCapacity = 4 ∧
    (VULKAN_INTERNAL_AllocateCommandBuffers ⟨[], 2⟩ 2 false 0).1.inactiveCommandBufferCapacity ≠ 2 ∧
    (VULKAN_INTERNAL_AllocateCommandBuffers ⟨[], 2⟩ 2 false 0).1.inactiveCommandBuffers = [] := by
  decide

/-- C6 (amended): when the native command-buffer allocation fails during pool
growth, the free list is unchanged and no buffers are appended, but the
capacity has already been raised by the requested amount before the failing
native call, and that raise is retained. -/
theorem claim_C6 (pool : CommandPoolState) (allocateCount nextHandle : Nat) :
    (VULKAN_INTERNAL_AllocateCommandBuffers pool allocateCount false nextHandle).1.inactiveCommandBuffers =
      pool.inactiveCommandBuffers ∧
    (VULKAN_INTERNAL_AllocateCommandBuffers pool allocateCount false nextHandle).1.inactiveCommandBufferCapacity =
      pool.inactiveCommandBufferCapacity + allocateCount ∧
    (VULKAN_INTERNAL_AllocateCommandBuffers pool allocateCount false nextHandle).2 = nextHandle := by
  simp [VULKAN_INTERNAL_AllocateCommandBuffers]

/-- C8: when the filling vkEnumeratePhysicalDevices call reports
VK_INCOMPLETE, VULKAN_INTERNAL_DeterminePhysicalDevice behaves exactly as if
the call had returned VK_SUCCESS: it proceeds with the returned adapters
instead of failing. -/
theorem claim_C8 (enumRes1 : Int) (candidates : List VulkanCandidate) :
    VULKAN_INTERNAL_DeterminePhysicalDevice enumRes1 VK_INCOMPLETE candidates =
    VULKAN_INTERNAL_DeterminePhysicalDevice enumRes1 VK_SUCCESS candidates := by
  simp [VULKAN_INTERNAL_DeterminePhysicalDevice, VK_INCOMPLETE, VK_SUCCESS]

/-- C9 counterexample: on a fence that is unsignaled (reset, with no
completed submission) the driver returns 1 from queryFence — reporting it
signaled although no submission completed — and returns 0 (immediate
success) from waitFence instead of blocking or failing. -/
theorem counterexample_C9 :
    (⟨false⟩ : SDL_GpuFence).signaled = false ∧
    VULKAN_GpuQueryFence ⟨false⟩ = 1 ∧
    VULKAN_GpuWaitFence ⟨false⟩ = 0 := by decide

/-- C9 (amended): in this driver the fence operations are stubs that ignore
the fence state entirely: queryFence always returns 1 (signaled) and
waitFence always returns 0 (success) immediately, for every fence. -/
theorem claim_C9 (fence : SDL_GpuFence) :
    VULKAN_GpuQueryFence fence = 1 ∧ VULKAN_GpuWaitFence fence = 0 :=
  ⟨rfl, rfl⟩

/-- C5: a freshly created per-thread pool has capacity 2 (and 2 free
buffers); and an acquisition that finds the free list empty grows the pool by
requesting exactly the current capacity in new buffers — appending all of
them to the free list — so capacity C becomes 2C. -/
theorem claim_C5 (pool : CommandPoolState) (nextHandle : Nat)
    (hEmpty : pool.inactiveCommandBuffers = []) :
    (VULKAN_INTERNAL_FetchCommandPool true nextHandle).1.inactiveCommandBufferCapacity = 2 ∧
    (VULKAN_INTERNAL_FetchCommandPool true nextHandle).1.inactiveCommandBuffers.length = 2 ∧
    (VULKAN_INTERNAL_AllocateCommandBuffers pool pool.inactiveCommandBufferCapacity true nextHandle).1.inactiveCommandBuffers =
      pool.inactiveCommandBuffers ++
        (List.range pool.inactiveCommandBufferCapacity).map (fun k => nextHandle + k) ∧
    (VULKAN_INTERNAL_AllocateCommandBuffers pool pool.inactiveCommandBufferCapacity true nextHandle).1.inactiveCommandBufferCapacity =
      2 * pool.inactiveCommandBufferCapacity ∧
    (VULKAN_INTERNAL_GetInactiveCommandBufferFromPool pool true nextHandle).2.1.inactiveCommandBufferCapacity =
      2 * pool.inactiveCommandBufferCapacity := by
  refine ⟨rfl, rfl, ?_, ?_, ?_⟩
  · simp [VULKAN_INTERNAL_AllocateCommandBuffers]
  · simp [VULKAN_INTERNAL_AllocateCommandBuffers]; omega
  · unfold VULKAN_INTERNAL_GetInactiveCommandBufferFromPool popInactive
    simp only [hEmpty, List.length_nil, if_pos rfl]
    split
    · simp [VULKAN_INTERNAL_AllocateCommandBuffers, hEmpty]; omega
    · simp [VULKAN_INTERNAL_AllocateCommandBuffers, hEmpty]; omega

/-- C5 witness: the growth facts instantiated at a pool of capacity 4 with an
empty free list and fresh-handle counter 10. -/
theorem claim_C5_witness :
    (⟨[], 4⟩ : CommandPoolState).inactiveCommandBuffers = [] ∧
    ((VULKAN_INTERNAL_FetchCommandPool true 10).1.inactiveCommandBufferCapacity = 2 ∧
     (VULKAN_INTERNAL_FetchCommandPool true 10).1.inactiveCommandBuffers.length = 2 ∧
     (VULKAN_INTERNAL_AllocateCommandBuffers ⟨[], 4⟩ (⟨[], 4⟩ : CommandPoolState).inactiveCommandBufferCapacity true 10).1.inactiveCommandBuffers =
       (⟨[], 4⟩ : CommandPoolState).inactiveCommandBuffers ++
         (List.range (⟨[], 4⟩ : CommandPoolState).inactiveCommandBufferCapacity).map (fun k => 10 + k) ∧
     (VULKAN_INTERNAL_AllocateCommandBuffers ⟨[], 4⟩ (⟨[], 4⟩ : CommandPoolState).inactiveCommandBufferCapacity true 10).1.inactiveCommandBufferCapacity =
       2 * (⟨[], 4⟩ : CommandPoolState).inactiveCommandBufferCapacity ∧
     (VULKAN_INTERNAL_GetInactiveCommandBufferFromPool ⟨[], 4⟩ true 10).2.1.inactiveCommandBufferCapacity =
       2 * (⟨[], 4⟩ : CommandPoolState).inactiveCommandBufferCapacity) :=
  ⟨rfl, claim_C5 ⟨[], 4⟩ 10 rfl⟩

/-- C10: a CPU buffer created with initial data locks to storage whose first
buflen bytes are that data; one created with a NULL data pointer locks to
all-zero storage; and when the backing allocation fails the call returns the
SDL_OutOfMemory error (-1) and leaves no storage attached. -/
theorem claim_C10 (buflen : Nat) (d : List Nat) (hlen : d.length = buflen) :
    VULKAN_GpuLockCpuBuffer (VULKAN_GpuCreateCpuBuffer ⟨buflen, none⟩ (some d) true).2 = some d ∧
    VULKAN_GpuLockCpuBuffer (VULKAN_GpuCreateCpuBuffer ⟨buflen, none⟩ none true).2 =
      some (List.replicate buflen 0) ∧
    (VULKAN_GpuCreateCpuBuffer ⟨buflen, none⟩ (some d) false).1 = -1 ∧
    (VULKAN_GpuCreateCpuBuffer ⟨buflen, none⟩ (some d) false).2.driverdata = none := by
  subst hlen
  refine ⟨?_, by simp [VULKAN_GpuCreateCpuBuffer, VULKAN_GpuLockCpuBuffer],
    by simp [VULKAN_GpuCreateCpuBuffer], by simp [VULKAN_GpuCreateCpuBuffer]⟩
  simp [VULKAN_GpuCreateCpuBuffer, VULKAN_GpuLockCpuBuffer, SDL_memcpy]

/-- C10 witness: a 3-byte buffer created from the data [9, 8, 7]. -/
theorem claim_C10_witness :
    ([9, 8, 7] : List Nat).length = 3 ∧
    (VULKAN_GpuLockCpuBuffer (VULKAN_GpuCreateCpuBuffer ⟨3, none⟩ (some [9, 8, 7]) true).2 = some [9, 8, 7] ∧
     VULKAN_GpuLockCpuBuffer (VULKAN_GpuCreateCpuBuffer ⟨3, none⟩ none true).2 =
       some (List.replicate 3 0) ∧
     (VULKAN_GpuCreateCpuBuffer ⟨3, none⟩ (some [9, 8, 7]) false).1 = -1 ∧
     (VULKAN_GpuCreateCpuBuffer ⟨3, none⟩ (some [9, 8, 7]) false).2.driverdata = none) :=
  ⟨rfl, claim_C10 3 [9, 8, 7] rfl⟩

/-- Helper: popping from a nonempty free list hands out the tail entry and
drops it. -/
theorem popInactive_of_ne_nil (bufs : List Nat) (cap nh : Nat) (hne : bufs ≠ []) :
    popInactive (⟨bufs, cap⟩, nh) =
      (some (bufs.getLast hne), ⟨bufs.dropLast, cap⟩, nh) := by
  unfold popInactive
  rw [List.getLast?_eq_getLast bufs hne]

/-- Helper: one successful acquisition hands out a buffer that is fresh
among everything outside the free list, preserves the pool invariant, and
never resurrects a previously handed-out handle. -/
theorem getInactive_step (pool : CommandPoolState) (nh : Nat) (hInv : PoolInv pool nh) :
    ∃ b pool1 nh1,
      VULKAN_INTERNAL_GetInactiveCommandBufferFromPool pool true nh = (some b, pool1, nh1) ∧
      PoolInv pool1 nh1 ∧ b < nh1 ∧ b ∉ pool1.inactiveCommandBuffers ∧ nh ≤ nh1 ∧
      (∀ x, x < nh → x ∉ pool.inactiveCommandBuffers →
        (x ≠ b ∧ x ∉ pool1.inactiveCommandBuffers)) := by
  obtain ⟨hnd, hbound, hcap⟩ := hInv
  obtain ⟨bufs, cap⟩ := pool
  dsimp only at hnd hbound hcap
  by_cases hlen : bufs.length = 0
  · -- empty free list: grow by the current capacity, then pop
    have hnil : bufs = [] := List.length_eq_zero.mp hlen
    subst hnil
    have halloc : VULKAN_INTERNAL_AllocateCommandBuffers ⟨[], cap⟩ cap true nh =
        (⟨(List.range cap).map (fun k => nh + k), cap + cap⟩, nh + cap) := by
      unfold VULKAN_INTERNAL_AllocateCommandBuffers
      simp
    have hL : ((List.range cap).map (fun k => nh + k)).length = cap := by simp
    have hLne : (List.range cap).map (fun k => nh + k) ≠ [] := by
      intro hcon
      rw [hcon] at hL
      simp at hL
      omega
    have hgi : VULKAN_INTERNAL_GetInactiveCommandBufferFromPool ⟨[], cap⟩ true nh =
        (some (((List.range cap).map (fun k => nh + k)).getLast hLne),
         ⟨((List.range cap).map (fun k => nh + k)).dropLast, cap + cap⟩, nh + cap) := by
      unfold VULKAN_INTERNAL_GetInactiveCommandBufferFromPool
      dsimp only
      rw [if_pos hlen, halloc, popInactive_of_ne_nil _ _ _ hLne]
    have hLnd : ((List.range cap).map (fun k => nh + k)).Nodup :=
      List.Nodup.map (fun a b hab => by omega) (List.nodup_range cap)
    have hLmem : ∀ x ∈ (List.range cap).map (fun k => nh + k), nh ≤ x ∧ x < nh + cap := by
      intro x hx
      simp only [List.mem_map, List.mem_range] at hx
      obtain ⟨k, hk, hkx⟩ := hx
      omega
    have hsplit := List.dropLast_append_getLast hLne
    have hdnd : ((List.range cap).map (fun k => nh + k)).dropLast.Nodup ∧
        ((List.range cap).map (fun k => nh + k)).getLast hLne ∉
          ((List.range cap).map (fun k => nh + k)).dropLast := by
      rw [← hsplit] at hLnd
      obtain ⟨nd1, -, hdisj⟩ := List.nodup_append.mp hLnd
      exact ⟨nd1, fun hmem => hdisj hmem (List.mem_singleton_self _)⟩
    have hdsub : ∀ x ∈ ((List.range cap).map (fun k => nh + k)).dropLast,
        x ∈ (List.range cap).map (fun k => nh + k) := by
      intro x hx
      rw [← hsplit]
      exact List.mem_append_left _ hx
    refine ⟨_, _, _, hgi, ⟨hdnd.1, ?_, by dsimp only; omega⟩, ?_, hdnd.2, by omega, ?_⟩
    · intro b hb
      exact (hLmem b (hdsub b hb)).2
    · exact (hLmem _ (List.getLast_mem hLne)).2
    · intro x hx hxmem
      constructor
      · intro hcon
        have := (hLmem _ (List.getLast_mem hLne)).1
        omega
      · intro hcon
        have := (hLmem x (hdsub x hcon)).1
        omega
  · -- nonempty free list: pop directly
    have hne : bufs ≠ [] := fun hcon => hlen (by rw [hcon]; rfl)
    have hgi : VULKAN_INTERNAL_GetInactiveCommandBufferFromPool ⟨bufs, cap⟩ true nh =
        (some (bufs.getLast hne), ⟨bufs.dropLast, cap⟩, nh) := by
      unfold VULKAN_INTERNAL_GetInactiveCommandBufferFromPool
      dsimp only
      rw [if_neg hlen, popInactive_of_ne_nil _ _ _ hne]
    have hsplit := List.dropLast_append_getLast hne
    have hdnd : bufs.dropLast.Nodup ∧ bufs.getLast hne ∉ bufs.dropLast := by
      rw [← hsplit] at hnd
      obtain ⟨nd1, -, hdisj⟩ := List.nodup_append.mp hnd
      exact ⟨nd1, fun hmem => hdisj hmem (List.mem_singleton_self _)⟩
    have hdsub : ∀ x ∈ bufs.dropLast, x ∈ bufs := by
      intro x hx
      rw [← hsplit]
      exact List.mem_append_left _ hx
    refine ⟨_, _, _, hgi, ⟨hdnd.1, ?_, hcap⟩, ?_, hdnd.2, Nat.le_refl nh, ?_⟩
    · intro b hb
      exact hbound b (hdsub b hb)
    · exact hbound _ (List.getLast_mem hne)
    · intro x hx hxmem
      exact ⟨fun hcon => hxmem (hcon ▸ List.getLast_mem hne),
        fun hcon => hxmem (hdsub x hcon)⟩

/-- Helper: a run of n successful acquisitions yields n pairwise distinct
buffers, preserves the pool invariant, and never hands out a handle that was
already outside the free list. -/
theorem acquireMany_spec :
    ∀ (n : Nat) (pool : CommandPoolState) (nh : Nat), PoolInv pool nh →
    (acquireMany n pool nh).1.length = n ∧
    (acquireMany n pool nh).1.Nodup ∧
    PoolInv (acquireMany n pool nh).2.1 (acquireMany n pool nh).2.2 ∧
    nh ≤ (acquireMany n pool nh).2.2 ∧
    (∀ x, x < nh → x ∉ pool.inactiveCommandBuffers →
      x ∉ (acquireMany n pool nh).1 ∧
      x ∉ (acquireMany n pool nh).2.1.inactiveCommandBuffers) := by
  intro n
  induction n with
  | zero =>
    intro pool nh hInv
    exact ⟨rfl, List.nodup_nil, hInv, Nat.le_refl nh, fun x _ hx => ⟨List.not_mem_nil x, hx⟩⟩
  | succ n ih =>
    intro pool nh hInv
    obtain ⟨b, pool1, nh1, hgi, hInv1, hblt, hbnot, hle1, hfresh⟩ := getInactive_step pool nh hInv
    obtain ⟨ihlen, ihnd, ihInv, ihle, ihfresh⟩ := ih pool1 nh1 hInv1
    rcases hra : acquireMany n pool1 nh1 with ⟨acq, pool2, nh2⟩
    rw [hra] at ihlen ihnd ihInv ihle ihfresh
    dsimp only at ihlen ihnd ihInv ihle ihfresh
    have hstep : acquireMany (n + 1) pool nh = (b :: acq, pool2, nh2) := by
      simp only [acquireMany, hgi, hra, Option.toList_some, List.singleton_append]
    rw [hstep]
    refine ⟨by simp [ihlen], ?_, ihInv, by dsimp only; omega, ?_⟩
    · exact List.nodup_cons.mpr ⟨(ihfresh b hblt hbnot).1, ihnd⟩
    · intro x hx hxmem
      obtain ⟨hxb, hx1⟩ := hfresh x hx hxmem
      obtain ⟨hxacq, hx2⟩ := ihfresh x (by omega) hx1
      refine ⟨?_, hx2⟩
      simp only [List.mem_cons, not_or]
      exact ⟨hxb, hxacq⟩

/-- C7: starting from a freshly created pool, any number of consecutive
successful acquisitions by the owning thread with no intervening returns
hands out pairwise distinct command buffers — no two outstanding
acquisitions from the same pool ever hold the same buffer. -/
theorem claim_C7 (n nh0 : Nat) :
    (acquireMany n (VULKAN_INTERNAL_FetchCommandPool true nh0).1
      (VULKAN_INTERNAL_FetchCommandPool true nh0).2).1.Nodup ∧
    (acquireMany n (VULKAN_INTERNAL_FetchCommandPool true nh0).1
      (VULKAN_INTERNAL_FetchCommandPool true nh0).2).1.length = n := by
  have hfetch : VULKAN_INTERNAL_FetchCommandPool true nh0 =
      (⟨[nh0, nh0 + 1], 2⟩, nh0 + 2) := by
    unfold VULKAN_INTERNAL_FetchCommandPool VULKAN_INTERNAL_AllocateCommandBuffers
    simp [List.range_succ]
  rw [hfetch]
  have hInv : PoolInv ⟨[nh0, nh0 + 1], 2⟩ (nh0 + 2) := by
    refine ⟨?_, ?_, by dsimp only; omega⟩
    · refine List.nodup_cons.mpr ⟨?_, List.nodup_cons.mpr ⟨List.not_mem_nil _, List.nodup_nil⟩⟩
      intro hmem
      rcases List.mem_cons.mp hmem with h | h3
      · omega
      · exact List.not_mem_nil _ h3
    · intro b hb
      rcases List.mem_cons.mp hb with h | hb2
      · omega
      · rcases List.mem_cons.mp hb2 with h | h3
        · omega
        · exact absurd h3 (List.not_mem_nil b)
  obtain ⟨hlen, hnd, -, -, -⟩ := acquireMany_spec n ⟨[nh0, nh0 + 1], 2⟩ (nh0 + 2) hInv
  exact ⟨hnd, hlen⟩

end SDLGpuVulkan
